import Mathlib

/-!
# MiningOpt task registry (`web/models/manager.go`)

A shallow embedding of the task registry and of the status-notification loop
of `web/models/manager.go`, followed by the properties of the registry that
its specification states.

Conventions of the embedding.

* The registry `manager` holds pointers to `task_item` records.  A pointer is
  modelled by the position of the record in `task_list`; a write through a
  pointer is a `List.set` at that position (or a rebuilt list cell).
* Every operation returns an `Outcome`: its return value, the registry after
  it, and the trace of the calls it issued, in program order (`Effect`).
  The mutex of the registry appears in the trace as `Effect.lock` and
  `Effect.unlock`.
* What the operating system and the collaborators answer (the clock, the JSON
  encoder, the file system, the backend, the download) is an input of the
  operation that asks for it.
* Functions and constants that the file uses but does not define
  (`rpcxutils.TaskState2Desc`, `rpcxutils.Task_New`, `rpcxutils.Task_Done_OK`,
  the methods `Encode2Json`, `DataURL`, `ParamURL` of `task_item`) are the
  fields of the parameter `Collaborators`; theorems hold for every value of it.
-/

namespace MiningOpt

/-! ## Data model -/

/-- A reading of `time.Time`. -/
abbrev Time := Nat

/-- The status code `rpcxutils.TaskState` carried by a status event. -/
abbrev TaskState := Int

/-- The record `task_item` (its embedded `sync.Mutex` carries no data). -/
structure task_item where
  id : String
  create : Time
  status : String
  desc : String
  outurl : String
  server : String
deriving DecidableEq

/-- The record `task_status`, the content of the persisted status file. -/
structure task_status where
  Create : Time
  Status : String
deriving DecidableEq

/-- Modelled from the spec: the record `server_item` is declared outside
`manager.go`; the specification gives a server an identity and further fields
that the registry never inspects. -/
structure server_item where
  id : String
deriving DecidableEq

/-- The registry `manager`: the fields that hold data.  `task_center` and
`client_notify` are collaborators, their calls are recorded in the trace. -/
structure manager where
  task_list : List task_item
  server_list : List server_item
  urlprefix : String
deriving DecidableEq

/-- The status event received from `task_center.NotifyChnl()`.  The source
reads `status.TaskId`, `status.TaskStatus.Status` (also written
`status.Status`, the promoted field of the embedded `TaskStatus`),
`status.Desc` and `status.Worker`. -/
structure StatusEvent where
  TaskId : String
  Status : TaskState
  Desc : String
  Worker : String
deriving DecidableEq

/-- The request `optimization.MiningOptParams` built by `run_task`. -/
structure MiningOptParams where
  TaskId : String
  InputFile : String
  ParamFile : String
deriving DecidableEq

/-- What `manager.go` uses without defining it: the status vocabulary of
`rpcxutils` and the methods of `task_item` declared in another file. -/
structure Collaborators where
  TaskState2Desc : TaskState → String
  Task_New : TaskState
  Task_Done_OK : TaskState
  Encode2Json : task_item → String
  DataURL : task_item → String
  ParamURL : task_item → String

/-- What the environment answers during one call of `NewTask`: the clock, the
JSON encoder, `ioutil.WriteFile` (`none` is a nil error) and the value the
backend call leaves in the reply variable `task.outurl`. -/
structure NewTaskWorld where
  now : Time
  encode : task_status → Except String String
  writeFile : String → String → Option String
  miningOpt : MiningOptParams → String → String

/-- The calls an operation issues, in program order.  `goHandler t` is the
`go func(t *task_item)` statement for the task at position `t`. -/
inductive Effect where
  | lock
  | unlock
  | logError (msg : String)
  | writeFile (file : String) (data : String)
  | miningOpt (taskId : String) (args : MiningOptParams)
  | relayCall (method : String) (payload : String)
  | goHandler (t : Nat)
  | downloadResultFile (t : Nat)
deriving DecidableEq

/-- The result of an operation: return value, registry afterwards, trace. -/
structure Outcome (α : Type) where
  ret : α
  reg : manager
  trace : List Effect

/-! ## Constants -/

def Task_data_dir : String := "tasks"

def Task_id_len : Nat := 8

def Task_data_file : String := "data.gz"

def Task_param_file : String := "param.json"

def Task_result_file : String := "result.gz"

def Task_status_file : String := "status.json"

def task_status_OK : String := "OK"

def task_status_Download_Failed : String := "Download failed"

/-! ## Operations -/

/-- The method `manager.TaskList`: under the lock, `nil` for an empty list,
otherwise a fresh slice with the same elements in the same order.  A `nil`
slice is the empty list. -/
def TaskList (m : manager) : Outcome (List task_item) :=
  if m.task_list.length = 0 then
    { ret := [], reg := m, trace := [Effect.lock, Effect.unlock] }
  else
    { ret := m.task_list.map (fun item => item), reg := m,
      trace := [Effect.lock, Effect.unlock] }

/-- The method `manager.ServerList`. -/
def ServerList (m : manager) : Outcome (List server_item) :=
  if m.server_list.length = 0 then
    { ret := [], reg := m, trace := [Effect.lock, Effect.unlock] }
  else
    { ret := m.server_list.map (fun item => item), reg := m,
      trace := [Effect.lock, Effect.unlock] }

/-- The method `manager.run_task`: builds the request and calls the backend,
which may write the reply variable `task.outurl`. -/
def run_task (V : Collaborators) (w : NewTaskWorld) (m : manager) (task : task_item) :
    task_item × List Effect :=
  let args : MiningOptParams :=
    { TaskId := task.id
      InputFile := m.urlprefix ++ V.DataURL task
      ParamFile := m.urlprefix ++ V.ParamURL task }
  ({ task with outurl := w.miningOpt args task.outurl }, [Effect.miningOpt task.id args])

/-- The path `fmt.Sprintf("%v/%v/%v", Task_data_dir, id, Task_status_file)`. -/
def statusFile (id : String) : String :=
  Task_data_dir ++ "/" ++ id ++ "/" ++ Task_status_file

/-- The value `status` of `NewTask`: the clock reading and the description of
`Task_New`. -/
def initialStatus (V : Collaborators) (w : NewTaskWorld) : task_status :=
  { Create := w.now, Status := V.TaskState2Desc V.Task_New }

/-- The method `manager.NewTask`.  The return value is the error (`none` for
`nil`). -/
def NewTask (V : Collaborators) (w : NewTaskWorld) (m : manager) (id : String) :
    Outcome (Option String) :=
  let file := statusFile id
  let status := initialStatus V w
  match w.encode status with
  | Except.error e =>
    { ret := some e, reg := m,
      trace := [Effect.logError ("Failed to encode task status: " ++ e)] }
  | Except.ok buf =>
    match w.writeFile file buf with
    | some e =>
      { ret := some e, reg := m,
        trace := [Effect.writeFile file buf,
          Effect.logError ("Failed to write task status file " ++ file ++ ": " ++ e)] }
    | none =>
      let task : task_item :=
        { id := id, create := status.Create, status := status.Status,
          desc := "", outurl := "", server := "" }
      let m1 : manager := { m with task_list := m.task_list ++ [task] }
      let r := run_task V w m1 task
      { ret := none,
        reg := { m1 with task_list := m1.task_list.set m.task_list.length r.1 },
        trace := [Effect.writeFile file buf, Effect.lock, Effect.unlock] ++ r.2 }

/-- The body of the `if status.TaskId == task.id` branch of `waitNotify`, as
far as it writes the task. -/
def applyStatus (V : Collaborators) (status : StatusEvent) (task : task_item) : task_item :=
  let task := { task with status := V.TaskState2Desc status.Status, desc := status.Desc }
  if status.Worker.utf8ByteSize > 0 then { task with server := status.Worker } else task

/-- The `for _, task := range m.task_list` loop of `waitNotify`, from position
`idx` on: the first task with the identifier of the event is written, its new
state is relayed, a handler is started when the code is `Task_Done_OK`, and
the loop breaks. -/
def scanTasks (V : Collaborators) (status : StatusEvent) :
    Nat → List task_item → List task_item × List Effect
  | _, [] => ([], [])
  | idx, task :: rest =>
    if status.TaskId = task.id then
      let task := applyStatus V status task
      (task :: rest,
        Effect.relayCall "UpdateTaskStatus" (V.Encode2Json task) ::
          (if status.Status = V.Task_Done_OK then [Effect.goHandler idx] else []))
    else
      let r := scanTasks V status (idx + 1) rest
      (task :: r.1, r.2)

/-- One iteration of the loop of `manager.waitNotify`, for the event `status`
received from the channel. -/
def waitNotify (V : Collaborators) (m : manager) (status : StatusEvent) : Outcome Unit :=
  let r := scanTasks V status 0 m.task_list
  { ret := (), reg := { m with task_list := r.1 },
    trace := [Effect.lock] ++ r.2 ++ [Effect.unlock] }

/-- The function literal started by `go func(t *task_item)` in `waitNotify`,
run on the task at position `t` of the registry: `t.downloadResultFile()`,
whose effect on the task is `dl`, then one relay call with the task encoded
afterwards. -/
def completionHandler (V : Collaborators) (dl : task_item → task_item) (m : manager)
    (t : Nat) : Outcome Unit :=
  match m.task_list[t]? with
  | none => { ret := (), reg := m, trace := [] }
  | some task =>
    let task := dl task
    { ret := (), reg := { m with task_list := m.task_list.set t task },
      trace := [Effect.downloadResultFile t,
        Effect.relayCall "UpdateTaskStatus" (V.Encode2Json task)] }

/-- A call of the registry as a client or the backend issues it. -/
inductive Op where
  | newTask (id : String) (w : NewTaskWorld)
  | notify (status : StatusEvent)
  | taskList
  | serverList

/-- The registry after one operation. -/
def step (V : Collaborators) (m : manager) : Op → manager
  | Op.newTask id w => (NewTask V w m id).reg
  | Op.notify status => (waitNotify V m status).reg
  | Op.taskList => (TaskList m).reg
  | Op.serverList => (ServerList m).reg

/-- The registry after a sequence of operations, first to last. -/
def run (V : Collaborators) (m : manager) (ops : List Op) : manager :=
  ops.foldl (step V) m

/-- The registry at start-up: no task. -/
def emptyRegistry (servers : List server_item) (pre : String) : manager :=
  { task_list := [], server_list := servers, urlprefix := pre }

/-- The status file of a call of `NewTask` is written: the encoder returns a
buffer and `ioutil.WriteFile` returns no error for it. -/
def statusFileWritten (V : Collaborators) (w : NewTaskWorld) (id : String) : Prop :=
  ∃ buf, w.encode (initialStatus V w) = Except.ok buf ∧ w.writeFile (statusFile id) buf = none

/-- The identifiers of the `NewTask` calls of a sequence whose status file is
written, in call order. -/
def registeredIds (V : Collaborators) : List Op → List String
  | [] => []
  | Op.newTask id w :: ops =>
    match w.encode (initialStatus V w) with
    | Except.error _ => registeredIds V ops
    | Except.ok buf =>
      match w.writeFile (statusFile id) buf with
      | some _ => registeredIds V ops
      | none => id :: registeredIds V ops
  | _ :: ops => registeredIds V ops

/-- The pair the registry never changes: identifier and creation time. -/
def key (t : task_item) : String × Time := (t.id, t.create)

/-- A call that is input, output or a request to another process. -/
def Effect.isCall : Effect → Bool
  | Effect.lock => false
  | Effect.unlock => false
  | Effect.goHandler _ => false
  | _ => true

/-- The calls of a trace issued while the registry lock is held; `held` is the
state of the lock before the trace. -/
def callsUnderLock : Bool → List Effect → List Effect
  | _, [] => []
  | _, Effect.lock :: es => callsUnderLock true es
  | _, Effect.unlock :: es => callsUnderLock false es
  | held, e :: es =>
    if held && e.isCall then e :: callsUnderLock held es else callsUnderLock held es

/-- The relay calls of a trace. -/
def relayCalls (es : List Effect) : List Effect :=
  es.filter (fun e => match e with
    | Effect.relayCall _ _ => true
    | _ => false)

/-- The handlers a trace starts. -/
def handlersStarted (es : List Effect) : List Effect :=
  es.filter (fun e => match e with
    | Effect.goHandler _ => true
    | _ => false)

/-- The backend submissions of a trace. -/
def submissions (es : List Effect) : List Effect :=
  es.filter (fun e => match e with
    | Effect.miningOpt _ _ => true
    | _ => false)

/-- The record `NewTask` leaves in the registry: the fields it sets, and the
reply of the backend in `outurl`. -/
def registeredTask (V : Collaborators) (w : NewTaskWorld) (m : manager) (id : String) :
    task_item :=
  (run_task V w { m with task_list := m.task_list ++
    [{ id := id, create := w.now, status := V.TaskState2Desc V.Task_New,
       desc := "", outurl := "", server := "" }] }
    { id := id, create := w.now, status := V.TaskState2Desc V.Task_New,
      desc := "", outurl := "", server := "" }).1

/-! ## Sample inputs

Concrete values on which the theorems below are evaluated. -/

/-- Modelled from the spec: the status vocabulary of `rpcxutils` and the
methods `Encode2Json`, `DataURL`, `ParamURL` of `task_item` are not part of
`manager.go`.  The specification names the states "new", "running" and
"succeeded", has failure states, surfaces an unmapped code verbatim, and
derives the locations of a task from its identifier.  The numbering of the
codes and the layout of the encoding are a choice of this sample. -/
def sampleCollaborators : Collaborators where
  TaskState2Desc := fun c =>
    if c = 0 then "new" else if c = 1 then "running" else if c = 2 then "succeeded"
    else if c = 3 then "failed" else toString c
  Task_New := 0
  Task_Done_OK := 2
  Encode2Json := fun t => t.id ++ "," ++ t.status ++ "," ++ t.desc ++ "," ++ t.server
  DataURL := fun t => "/" ++ Task_data_dir ++ "/" ++ t.id ++ "/" ++ Task_data_file
  ParamURL := fun t => "/" ++ Task_data_dir ++ "/" ++ t.id ++ "/" ++ Task_param_file

/-- A call of `NewTask` in which the status file is written. -/
def sampleWorld : NewTaskWorld where
  now := 7
  encode := fun s => Except.ok s.Status
  writeFile := fun _ _ => none
  miningOpt := fun _ reply => reply

/-- A task as `NewTask` registers it. -/
def sampleTask : task_item :=
  { id := "abcd1234", create := 7, status := "new", desc := "", outurl := "", server := "" }

/-- A registry with the task "abcd1234" in state "new". -/
def sampleRegistry : manager :=
  { task_list := [sampleTask], server_list := [], urlprefix := "http://web" }

/-- A registry with the task "abcd1234" in state "succeeded" on "workerA". -/
def doneRegistry : manager :=
  { task_list := [{ sampleTask with status := "succeeded", server := "workerA" }],
    server_list := [], urlprefix := "http://web" }

/-- The event "running on workerA" for the task "abcd1234". -/
def runningEvent : StatusEvent :=
  { TaskId := "abcd1234", Status := 1, Desc := "", Worker := "workerA" }

/-- The event "succeeded", without a worker, for the task "abcd1234". -/
def doneEvent : StatusEvent :=
  { TaskId := "abcd1234", Status := 2, Desc := "", Worker := "" }

/-- Modelled from the spec: the method `downloadResultFile` of `task_item` is
not part of `manager.go`; a failed download "is recorded as a download-failure
description on the task".  This is the effect of a failed download. -/
def downloadFails (t : task_item) : task_item :=
  { t with desc := task_status_Download_Failed }

/-- An event for a task the registry does not hold. -/
def strayEvent : StatusEvent :=
  { TaskId := "zzzz9999", Status := 1, Desc := "", Worker := "workerA" }

/-! ## Lemmas on the embedding -/

theorem utf8ByteSize_pos_iff (s : String) : s.utf8ByteSize > 0 ↔ s ≠ "" := by
  rcases s with ⟨cs⟩
  cases cs with
  | nil => simp [String.utf8ByteSize, String.utf8ByteSize.go]
  | cons c cs =>
    have h : 0 < c.utf8Size := Char.utf8Size_pos c
    have hne : (String.mk (c :: cs)) ≠ "" := by
      intro h0
      have := congrArg String.data h0
      simp at this
    simp [String.utf8ByteSize, String.utf8ByteSize.go, hne]
    omega

theorem applyStatus_id (V : Collaborators) (status : StatusEvent) (t : task_item) :
    (applyStatus V status t).id = t.id := by
  unfold applyStatus
  split <;> rfl

theorem applyStatus_create (V : Collaborators) (status : StatusEvent) (t : task_item) :
    (applyStatus V status t).create = t.create := by
  unfold applyStatus
  split <;> rfl

theorem applyStatus_status (V : Collaborators) (status : StatusEvent) (t : task_item) :
    (applyStatus V status t).status = V.TaskState2Desc status.Status := by
  unfold applyStatus
  split <;> rfl

theorem applyStatus_desc (V : Collaborators) (status : StatusEvent) (t : task_item) :
    (applyStatus V status t).desc = status.Desc := by
  unfold applyStatus
  split <;> rfl

theorem applyStatus_outurl (V : Collaborators) (status : StatusEvent) (t : task_item) :
    (applyStatus V status t).outurl = t.outurl := by
  unfold applyStatus
  split <;> rfl

theorem applyStatus_server (V : Collaborators) (status : StatusEvent) (t : task_item) :
    (applyStatus V status t).server = if status.Worker = "" then t.server else status.Worker := by
  unfold applyStatus
  by_cases h : status.Worker = ""
  · have h0 : ¬ status.Worker.utf8ByteSize > 0 := by
      rw [utf8ByteSize_pos_iff]; simp [h]
    simp only [if_neg h0, if_pos h]
  · have h0 : status.Worker.utf8ByteSize > 0 := (utf8ByteSize_pos_iff _).2 h
    simp only [if_pos h0, if_neg h]

theorem scanTasks_no_match (V : Collaborators) (status : StatusEvent) (l : List task_item) :
    ∀ idx, (∀ x ∈ l, x.id ≠ status.TaskId) → scanTasks V status idx l = (l, []) := by
  induction l with
  | nil => intro idx _; rfl
  | cons t rest ih =>
    intro idx h
    have ht : ¬ status.TaskId = t.id := fun e => h t (List.mem_cons_self _ _) e.symm
    have hr := ih (idx + 1) (fun x hx => h x (List.mem_cons_of_mem _ hx))
    simp [scanTasks, ht, hr]

theorem scanTasks_first_match (V : Collaborators) (status : StatusEvent)
    (pre : List task_item) (t : task_item) (post : List task_item) :
    ∀ idx, (∀ x ∈ pre, x.id ≠ status.TaskId) → t.id = status.TaskId →
      scanTasks V status idx (pre ++ t :: post) =
        (pre ++ applyStatus V status t :: post,
          Effect.relayCall "UpdateTaskStatus" (V.Encode2Json (applyStatus V status t)) ::
            (if status.Status = V.Task_Done_OK then [Effect.goHandler (idx + pre.length)]
             else [])) := by
  induction pre with
  | nil =>
    intro idx _ ht
    simp [scanTasks, ht]
  | cons p pre ih =>
    intro idx h ht
    have hp : ¬ status.TaskId = p.id := fun e => h p (List.mem_cons_self _ _) e.symm
    have hr := ih (idx + 1) (fun x hx => h x (List.mem_cons_of_mem _ hx)) ht
    have e : idx + 1 + pre.length = idx + (pre.length + 1) := by omega
    simp [scanTasks, hp, hr, e]

theorem exists_first_match (k : String) (l : List task_item) :
    (∃ t ∈ l, t.id = k) →
      ∃ pre t post, l = pre ++ t :: post ∧ (∀ x ∈ pre, x.id ≠ k) ∧ t.id = k := by
  induction l with
  | nil => rintro ⟨t, ht, _⟩; cases ht
  | cons a rest ih =>
    rintro ⟨t, ht, hk⟩
    by_cases ha : a.id = k
    · exact ⟨[], a, rest, rfl, by simp, ha⟩
    · have hrest : ∃ t ∈ rest, t.id = k := by
        rcases List.mem_cons.1 ht with h | h
        · exact absurd (h ▸ hk) ha
        · exact ⟨t, h, hk⟩
      obtain ⟨pre, u, post, hl, hpre, hu⟩ := ih hrest
      refine ⟨a :: pre, u, post, by simp [hl], ?_, hu⟩
      intro x hx
      rcases List.mem_cons.1 hx with h | h
      · exact h ▸ ha
      · exact hpre x h

theorem scanTasks_key (V : Collaborators) (status : StatusEvent) (l : List task_item) :
    ∀ idx, (scanTasks V status idx l).1.map key = l.map key := by
  induction l with
  | nil => intro idx; rfl
  | cons t rest ih =>
    intro idx
    by_cases ht : status.TaskId = t.id
    · simp [scanTasks, ht, key, applyStatus_id, applyStatus_create]
    · simp [scanTasks, ht, ih (idx + 1)]

theorem set_length_append (l : List task_item) (a b : task_item) :
    (l ++ [a]).set l.length b = l ++ [b] := by
  induction l with
  | nil => rfl
  | cons x l ih => simp [ih]

theorem getElem?_middle (pre : List task_item) (t : task_item) (post : List task_item) :
    (pre ++ t :: post)[pre.length]? = some t := by
  induction pre with
  | nil => simp
  | cons x pre ih => simpa using ih

theorem set_middle (pre : List task_item) (t u : task_item) (post : List task_item) :
    (pre ++ t :: post).set pre.length u = pre ++ u :: post := by
  induction pre with
  | nil => rfl
  | cons x pre ih => simp [ih]

theorem waitNotify_task_list (V : Collaborators) (m : manager) (status : StatusEvent) :
    (waitNotify V m status).reg.task_list = (scanTasks V status 0 m.task_list).1 := rfl

theorem waitNotify_trace (V : Collaborators) (m : manager) (status : StatusEvent) :
    (waitNotify V m status).trace =
      Effect.lock :: ((scanTasks V status 0 m.task_list).2 ++ [Effect.unlock]) := rfl

theorem waitNotify_match (V : Collaborators) (m : manager) (status : StatusEvent)
    (pre : List task_item) (t : task_item) (post : List task_item)
    (hm : m.task_list = pre ++ t :: post) (hpre : ∀ x ∈ pre, x.id ≠ status.TaskId)
    (ht : t.id = status.TaskId) :
    (waitNotify V m status).reg.task_list = pre ++ applyStatus V status t :: post ∧
      (waitNotify V m status).trace =
        Effect.lock ::
          Effect.relayCall "UpdateTaskStatus" (V.Encode2Json (applyStatus V status t)) ::
            ((if status.Status = V.Task_Done_OK then [Effect.goHandler pre.length] else [])
              ++ [Effect.unlock]) := by
  have h := scanTasks_first_match V status pre t post 0 hpre ht
  rw [waitNotify_task_list, waitNotify_trace, hm, h]
  simp

theorem waitNotify_no_match (V : Collaborators) (m : manager) (status : StatusEvent)
    (h : ∀ t ∈ m.task_list, t.id ≠ status.TaskId) :
    (waitNotify V m status).reg = m ∧
      (waitNotify V m status).trace = [Effect.lock, Effect.unlock] := by
  have hs := scanTasks_no_match V status m.task_list 0 h
  constructor
  · show ({ m with task_list := (scanTasks V status 0 m.task_list).1 } : manager) = m
    rw [hs]
  · rw [waitNotify_trace, hs]
    rfl

/-! ## Status events -/

/-- C2. When the registry holds a task with the identifier of the event, one
iteration of `waitNotify` writes the task the loop finds (the first with that
identifier): its status becomes `TaskState2Desc` of the event's code, its
description the event's description, every other record stays as it was, and
the iteration issues exactly one relay call, `UpdateTaskStatus`, with
`Encode2Json` of the task after the update. -/
theorem waitNotify_known_task (V : Collaborators) (m : manager) (status : StatusEvent)
    (h : ∃ t ∈ m.task_list, t.id = status.TaskId) :
    ∃ pre t post, m.task_list = pre ++ t :: post ∧ (∀ x ∈ pre, x.id ≠ status.TaskId) ∧
      t.id = status.TaskId ∧
      (waitNotify V m status).reg.task_list = pre ++ applyStatus V status t :: post ∧
      (applyStatus V status t).status = V.TaskState2Desc status.Status ∧
      (applyStatus V status t).desc = status.Desc ∧
      relayCalls (waitNotify V m status).trace =
        [Effect.relayCall "UpdateTaskStatus" (V.Encode2Json (applyStatus V status t))] := by
  obtain ⟨pre, t, post, hm, hpre, ht⟩ := exists_first_match status.TaskId m.task_list h
  obtain ⟨hl, htr⟩ := waitNotify_match V m status pre t post hm hpre ht
  refine ⟨pre, t, post, hm, hpre, ht, hl, applyStatus_status V status t,
    applyStatus_desc V status t, ?_⟩
  rw [htr]
  by_cases hc : status.Status = V.Task_Done_OK <;> simp [relayCalls, hc]

/-- C3. When no task of the registry has the identifier of the event, one
iteration of `waitNotify` leaves the registry as it was and only takes and
releases the lock: no relay call, no handler. -/
theorem waitNotify_unknown_task (V : Collaborators) (m : manager) (status : StatusEvent)
    (h : ∀ t ∈ m.task_list, t.id ≠ status.TaskId) :
    (waitNotify V m status).reg = m ∧
      (waitNotify V m status).trace = [Effect.lock, Effect.unlock] ∧
      relayCalls (waitNotify V m status).trace = [] ∧
      handlersStarted (waitNotify V m status).trace = [] := by
  obtain ⟨hr, ht⟩ := waitNotify_no_match V m status h
  refine ⟨hr, ht, ?_, ?_⟩ <;> rw [ht] <;> rfl

/-- C4, on the sample: after two calls of `NewTask` with the identifier
"abcd1234" and the event "running on workerA" for that identifier, the second
record has the identifier of the event, the worker of the event is not empty,
and the server of the second record is still empty: only the first record is
written. -/
theorem waitNotify_later_duplicate_untouched :
    (run sampleCollaborators (emptyRegistry [] "http://web")
        [Op.newTask "abcd1234" sampleWorld, Op.newTask "abcd1234" sampleWorld,
          Op.notify runningEvent]).task_list =
        [{ sampleTask with status := "running", server := "workerA" }, sampleTask] ∧
      sampleTask.id = runningEvent.TaskId ∧
      runningEvent.Worker ≠ "" ∧
      sampleTask.server ≠ runningEvent.Worker := by
  decide

/-- C4, as the code has it.  For the first record of the task list with the
identifier of the event (the record at which the scan of `waitNotify` stops),
after `waitNotify` the server is the worker of the event when the worker is
not empty and the previous server when it is empty; the records before and
after it, also those with the same identifier, stay as they were; and an
event with an empty worker leaves the server of every record as it was. -/
theorem waitNotify_server (V : Collaborators) (m : manager) (status : StatusEvent)
    (pre : List task_item) (t : task_item) (post : List task_item)
    (hm : m.task_list = pre ++ t :: post) (hpre : ∀ x ∈ pre, x.id ≠ status.TaskId)
    (ht : t.id = status.TaskId) :
    (waitNotify V m status).reg.task_list = pre ++ applyStatus V status t :: post ∧
      (applyStatus V status t).server =
        (if status.Worker = "" then t.server else status.Worker) ∧
      (status.Worker = "" →
        (waitNotify V m status).reg.task_list.map task_item.server =
          m.task_list.map task_item.server) := by
  obtain ⟨hl, _⟩ := waitNotify_match V m status pre t post hm hpre ht
  refine ⟨hl, applyStatus_server V status t, ?_⟩
  intro hw
  rw [hl, hm]
  simp [applyStatus_server, hw]

/-- The hypothesis of C2 on the sample registry and the event "running". -/
theorem sampleRegistry_holds_task :
    ∃ t ∈ sampleRegistry.task_list, t.id = runningEvent.TaskId :=
  ⟨sampleTask, List.mem_singleton.2 rfl, rfl⟩

theorem waitNotify_known_task_witness :
    (∃ t ∈ sampleRegistry.task_list, t.id = runningEvent.TaskId) ∧
      ∃ pre t post, sampleRegistry.task_list = pre ++ t :: post ∧
        (∀ x ∈ pre, x.id ≠ runningEvent.TaskId) ∧
        t.id = runningEvent.TaskId ∧
        (waitNotify sampleCollaborators sampleRegistry runningEvent).reg.task_list =
          pre ++ applyStatus sampleCollaborators runningEvent t :: post ∧
        (applyStatus sampleCollaborators runningEvent t).status =
          sampleCollaborators.TaskState2Desc runningEvent.Status ∧
        (applyStatus sampleCollaborators runningEvent t).desc = runningEvent.Desc ∧
        relayCalls (waitNotify sampleCollaborators sampleRegistry runningEvent).trace =
          [Effect.relayCall "UpdateTaskStatus"
            (sampleCollaborators.Encode2Json (applyStatus sampleCollaborators runningEvent t))] :=
  ⟨sampleRegistry_holds_task,
    waitNotify_known_task sampleCollaborators sampleRegistry runningEvent
      sampleRegistry_holds_task⟩

theorem waitNotify_unknown_task_witness :
    (∀ t ∈ sampleRegistry.task_list, t.id ≠ strayEvent.TaskId) ∧
      (waitNotify sampleCollaborators sampleRegistry strayEvent).reg = sampleRegistry ∧
      (waitNotify sampleCollaborators sampleRegistry strayEvent).trace =
        [Effect.lock, Effect.unlock] ∧
      relayCalls (waitNotify sampleCollaborators sampleRegistry strayEvent).trace = [] ∧
      handlersStarted (waitNotify sampleCollaborators sampleRegistry strayEvent).trace = [] :=
  ⟨by decide,
    waitNotify_unknown_task sampleCollaborators sampleRegistry strayEvent (by decide)⟩

theorem waitNotify_server_witness :
    (doneRegistry.task_list =
        [] ++ { sampleTask with status := "succeeded", server := "workerA" } :: []) ∧
      (waitNotify sampleCollaborators doneRegistry doneEvent).reg.task_list =
        [] ++ applyStatus sampleCollaborators doneEvent
          { sampleTask with status := "succeeded", server := "workerA" } :: [] ∧
      (applyStatus sampleCollaborators doneEvent
          { sampleTask with status := "succeeded", server := "workerA" }).server =
        (if doneEvent.Worker = "" then
          ({ sampleTask with status := "succeeded", server := "workerA" } : task_item).server
         else doneEvent.Worker) ∧
      (doneEvent.Worker = "" →
        (waitNotify sampleCollaborators doneRegistry doneEvent).reg.task_list.map
            task_item.server =
          doneRegistry.task_list.map task_item.server) :=
  ⟨rfl,
    waitNotify_server sampleCollaborators doneRegistry doneEvent []
      { sampleTask with status := "succeeded", server := "workerA" } [] rfl
      (by intro x hx; cases hx) rfl⟩

/-- The scenario of the specification, evaluated: the event "running on
workerA" for the task "abcd1234" in state "new". -/
theorem waitNotify_running_scenario :
    (waitNotify sampleCollaborators sampleRegistry runningEvent).reg.task_list =
        [{ sampleTask with status := "running", server := "workerA" }] ∧
      (waitNotify sampleCollaborators sampleRegistry runningEvent).trace =
        [Effect.lock, Effect.relayCall "UpdateTaskStatus" "abcd1234,running,,workerA",
          Effect.unlock] := by
  decide

/-! ## Completion handler -/

/-- C6. For an event that matches a task of the registry, the iteration of
`waitNotify` starts one handler, for the task it matched (the first record
with the identifier, at position `pre.length`), when the code of the event is
`Task_Done_OK`, and none otherwise.  The handler, run on the registry the
iteration leaves, calls `downloadResultFile` once and then issues one relay
call `UpdateTaskStatus` with `Encode2Json` of the task as the download leaves
it, whatever the download does to the task (`dl`). -/
theorem waitNotify_completion (V : Collaborators) (m : manager) (status : StatusEvent)
    (dl : task_item → task_item) (h : ∃ t ∈ m.task_list, t.id = status.TaskId) :
    ∃ pre t post, m.task_list = pre ++ t :: post ∧ (∀ x ∈ pre, x.id ≠ status.TaskId) ∧
      t.id = status.TaskId ∧
      handlersStarted (waitNotify V m status).trace =
        (if status.Status = V.Task_Done_OK then [Effect.goHandler pre.length] else []) ∧
      (completionHandler V dl (waitNotify V m status).reg pre.length).trace =
        [Effect.downloadResultFile pre.length,
          Effect.relayCall "UpdateTaskStatus" (V.Encode2Json (dl (applyStatus V status t)))] ∧
      (relayCalls (completionHandler V dl (waitNotify V m status).reg pre.length).trace).length
        = 1 ∧
      (completionHandler V dl (waitNotify V m status).reg pre.length).reg.task_list =
        pre ++ dl (applyStatus V status t) :: post := by
  obtain ⟨pre, t, post, hm, hpre, ht⟩ := exists_first_match status.TaskId m.task_list h
  obtain ⟨hl, htr⟩ := waitNotify_match V m status pre t post hm hpre ht
  have hget : (waitNotify V m status).reg.task_list[pre.length]? =
      some (applyStatus V status t) := by
    rw [hl]; exact getElem?_middle pre _ post
  refine ⟨pre, t, post, hm, hpre, ht, ?_, ?_, ?_, ?_⟩
  · rw [htr]
    by_cases hc : status.Status = V.Task_Done_OK <;> simp [handlersStarted, hc]
  · simp only [completionHandler, hget]
  · simp only [completionHandler, hget]
    simp [relayCalls]
  · simp only [completionHandler, hget]
    rw [hl]; exact set_middle pre _ _ post

theorem waitNotify_completion_witness :
    (∃ t ∈ sampleRegistry.task_list, t.id = doneEvent.TaskId) ∧
      ∃ pre t post, sampleRegistry.task_list = pre ++ t :: post ∧
        (∀ x ∈ pre, x.id ≠ doneEvent.TaskId) ∧
        t.id = doneEvent.TaskId ∧
        handlersStarted (waitNotify sampleCollaborators sampleRegistry doneEvent).trace =
          (if doneEvent.Status = sampleCollaborators.Task_Done_OK then
            [Effect.goHandler pre.length] else []) ∧
        (completionHandler sampleCollaborators downloadFails
            (waitNotify sampleCollaborators sampleRegistry doneEvent).reg pre.length).trace =
          [Effect.downloadResultFile pre.length,
            Effect.relayCall "UpdateTaskStatus"
              (sampleCollaborators.Encode2Json
                (downloadFails (applyStatus sampleCollaborators doneEvent t)))] ∧
        (relayCalls (completionHandler sampleCollaborators downloadFails
            (waitNotify sampleCollaborators sampleRegistry doneEvent).reg
            pre.length).trace).length = 1 ∧
        (completionHandler sampleCollaborators downloadFails
            (waitNotify sampleCollaborators sampleRegistry doneEvent).reg
            pre.length).reg.task_list =
          pre ++ downloadFails (applyStatus sampleCollaborators doneEvent t) :: post :=
  ⟨⟨sampleTask, List.mem_singleton.2 rfl, rfl⟩,
    waitNotify_completion sampleCollaborators sampleRegistry doneEvent downloadFails
      ⟨sampleTask, List.mem_singleton.2 rfl, rfl⟩⟩

/-- The scenario of the specification, evaluated: the event "succeeded" for
the task "abcd1234" starts one handler, and the handler relays once after a
failed download. -/
theorem waitNotify_done_scenario :
    (waitNotify sampleCollaborators sampleRegistry doneEvent).trace =
        [Effect.lock, Effect.relayCall "UpdateTaskStatus" "abcd1234,succeeded,,",
          Effect.goHandler 0, Effect.unlock] ∧
      (completionHandler sampleCollaborators downloadFails
          (waitNotify sampleCollaborators sampleRegistry doneEvent).reg 0).trace =
        [Effect.downloadResultFile 0,
          Effect.relayCall "UpdateTaskStatus" "abcd1234,succeeded,Download failed,"] := by
  decide

/-! ## The lock -/

theorem scanTasks_trace_cases (V : Collaborators) (status : StatusEvent)
    (l : List task_item) :
    ∀ idx, (scanTasks V status idx l).2 = [] ∨
      ∃ p i, (scanTasks V status idx l).2 =
        Effect.relayCall "UpdateTaskStatus" p ::
          (if status.Status = V.Task_Done_OK then [Effect.goHandler i] else []) := by
  induction l with
  | nil => intro idx; exact Or.inl rfl
  | cons t rest ih =>
    intro idx
    by_cases ht : status.TaskId = t.id
    · right
      exact ⟨V.Encode2Json (applyStatus V status t), idx, by simp [scanTasks, ht]⟩
    · simpa [scanTasks, ht] using ih (idx + 1)

/-- C7, on the sample: the iteration for a matched event issues its relay call
while the registry lock is held. -/
theorem waitNotify_relays_under_lock :
    (waitNotify sampleCollaborators sampleRegistry runningEvent).trace =
        [Effect.lock, Effect.relayCall "UpdateTaskStatus" "abcd1234,running,,workerA",
          Effect.unlock] ∧
      callsUnderLock false (waitNotify sampleCollaborators sampleRegistry runningEvent).trace =
        [Effect.relayCall "UpdateTaskStatus" "abcd1234,running,,workerA"] := by
  decide

/-- The shape of the trace of one iteration of `waitNotify`, matched event or
not: the lock first, the unlock last, between them nothing but a relay call
and the start of a handler; the calls issued under the lock are the relay
calls of the iteration, and `downloadResultFile` is not among its calls. -/
theorem waitNotify_trace_shape (V : Collaborators) (m : manager) (status : StatusEvent) :
    (∃ mid, (waitNotify V m status).trace = Effect.lock :: (mid ++ [Effect.unlock]) ∧
        ∀ e ∈ mid, (∃ p, e = Effect.relayCall "UpdateTaskStatus" p) ∨
          ∃ i, e = Effect.goHandler i) ∧
      callsUnderLock false (waitNotify V m status).trace =
        relayCalls (waitNotify V m status).trace ∧
      ∀ i, Effect.downloadResultFile i ∉ (waitNotify V m status).trace := by
  rw [waitNotify_trace]
  rcases scanTasks_trace_cases V status m.task_list 0 with h | ⟨p, i, h⟩
  · rw [h]
    refine ⟨⟨[], rfl, by simp⟩, by simp [callsUnderLock, relayCalls], by simp⟩
  · rw [h]
    by_cases hc : status.Status = V.Task_Done_OK
    · refine ⟨⟨_, rfl, by simp [hc]⟩, by simp [callsUnderLock, relayCalls, hc, Effect.isCall],
        by simp [hc]⟩
    · refine ⟨⟨_, rfl, by simp [hc]⟩, by simp [callsUnderLock, relayCalls, hc, Effect.isCall],
        by simp [hc]⟩

/-- C7, as the code has it.  For an event that matches a task of the registry,
one iteration of `waitNotify` takes the registry lock, issues the relay call
`UpdateTaskStatus` with `Encode2Json` of the updated task, starts the handler
when the code is `Task_Done_OK`, and only then releases the lock.  The relay
call is issued while the lock is held, it is the only call issued under the
lock, and the iteration itself never calls `downloadResultFile`. -/
theorem waitNotify_lock_discipline (V : Collaborators) (m : manager) (status : StatusEvent)
    (h : ∃ t ∈ m.task_list, t.id = status.TaskId) :
    ∃ pre t post, m.task_list = pre ++ t :: post ∧ (∀ x ∈ pre, x.id ≠ status.TaskId) ∧
      t.id = status.TaskId ∧
      (waitNotify V m status).trace =
        Effect.lock ::
          Effect.relayCall "UpdateTaskStatus" (V.Encode2Json (applyStatus V status t)) ::
            ((if status.Status = V.Task_Done_OK then [Effect.goHandler pre.length] else [])
              ++ [Effect.unlock]) ∧
      callsUnderLock false (waitNotify V m status).trace =
        [Effect.relayCall "UpdateTaskStatus" (V.Encode2Json (applyStatus V status t))] ∧
      ∀ i, Effect.downloadResultFile i ∉ (waitNotify V m status).trace := by
  obtain ⟨pre, t, post, hm, hpre, ht⟩ := exists_first_match status.TaskId m.task_list h
  obtain ⟨_, htr⟩ := waitNotify_match V m status pre t post hm hpre ht
  refine ⟨pre, t, post, hm, hpre, ht, htr, ?_, ?_⟩
  · rw [htr]
    by_cases hc : status.Status = V.Task_Done_OK <;>
      simp [callsUnderLock, hc, Effect.isCall]
  · rw [htr]
    by_cases hc : status.Status = V.Task_Done_OK <;> simp [hc]

theorem waitNotify_lock_discipline_witness :
    (∃ t ∈ sampleRegistry.task_list, t.id = doneEvent.TaskId) ∧
      ∃ pre t post, sampleRegistry.task_list = pre ++ t :: post ∧
        (∀ x ∈ pre, x.id ≠ doneEvent.TaskId) ∧
        t.id = doneEvent.TaskId ∧
        (waitNotify sampleCollaborators sampleRegistry doneEvent).trace =
          Effect.lock ::
            Effect.relayCall "UpdateTaskStatus"
                (sampleCollaborators.Encode2Json
                  (applyStatus sampleCollaborators doneEvent t)) ::
              ((if doneEvent.Status = sampleCollaborators.Task_Done_OK then
                  [Effect.goHandler pre.length] else [])
                ++ [Effect.unlock]) ∧
        callsUnderLock false (waitNotify sampleCollaborators sampleRegistry doneEvent).trace =
          [Effect.relayCall "UpdateTaskStatus"
            (sampleCollaborators.Encode2Json
              (applyStatus sampleCollaborators doneEvent t))] ∧
        ∀ i, Effect.downloadResultFile i ∉
          (waitNotify sampleCollaborators sampleRegistry doneEvent).trace :=
  ⟨⟨sampleTask, List.mem_singleton.2 rfl, rfl⟩,
    waitNotify_lock_discipline sampleCollaborators sampleRegistry doneEvent
      ⟨sampleTask, List.mem_singleton.2 rfl, rfl⟩⟩

/-! ## Terminal states -/

/-- C8, on the sample: the task "abcd1234" is in the state "succeeded", the
description of `Task_Done_OK`; the later event "running" for it sets its
status back to "running". -/
theorem waitNotify_regresses_terminal :
    doneRegistry.task_list.map task_item.status =
        [sampleCollaborators.TaskState2Desc sampleCollaborators.Task_Done_OK] ∧
      doneRegistry.task_list.map task_item.status = ["succeeded"] ∧
      (waitNotify sampleCollaborators doneRegistry runningEvent).reg.task_list.map
        task_item.status = ["running"] := by
  decide

/-- C8, as the code has it.  `waitNotify` applies an event to the task it
matches whatever the state of the task: afterwards the status is the
description of the event's code, and it equals the previous status exactly
when the previous status already was that description. -/
theorem waitNotify_status_overwritten (V : Collaborators) (m : manager)
    (status : StatusEvent) (pre : List task_item) (t : task_item) (post : List task_item)
    (hm : m.task_list = pre ++ t :: post) (hpre : ∀ x ∈ pre, x.id ≠ status.TaskId)
    (ht : t.id = status.TaskId) :
    (waitNotify V m status).reg.task_list = pre ++ applyStatus V status t :: post ∧
      (applyStatus V status t).status = V.TaskState2Desc status.Status ∧
      ((applyStatus V status t).status = t.status ↔
        t.status = V.TaskState2Desc status.Status) := by
  obtain ⟨hl, _⟩ := waitNotify_match V m status pre t post hm hpre ht
  refine ⟨hl, applyStatus_status V status t, ?_⟩
  rw [applyStatus_status]
  exact eq_comm

theorem waitNotify_status_overwritten_witness :
    (doneRegistry.task_list =
        [] ++ { sampleTask with status := "succeeded", server := "workerA" } :: []) ∧
      (waitNotify sampleCollaborators doneRegistry doneEvent).reg.task_list =
        [] ++ applyStatus sampleCollaborators doneEvent
          { sampleTask with status := "succeeded", server := "workerA" } :: [] ∧
      (applyStatus sampleCollaborators doneEvent
          { sampleTask with status := "succeeded", server := "workerA" }).status =
        sampleCollaborators.TaskState2Desc doneEvent.Status ∧
      ((applyStatus sampleCollaborators doneEvent
          { sampleTask with status := "succeeded", server := "workerA" }).status =
          ({ sampleTask with status := "succeeded", server := "workerA" } : task_item).status ↔
        ({ sampleTask with status := "succeeded", server := "workerA" } : task_item).status =
          sampleCollaborators.TaskState2Desc doneEvent.Status) :=
  ⟨rfl,
    waitNotify_status_overwritten sampleCollaborators doneRegistry doneEvent []
      { sampleTask with status := "succeeded", server := "workerA" } [] rfl
      (by intro x hx; cases hx) rfl⟩

/-! ## Submission -/

theorem registeredTask_id (V : Collaborators) (w : NewTaskWorld) (m : manager) (id : String) :
    (registeredTask V w m id).id = id := rfl

theorem NewTask_encode_error (V : Collaborators) (w : NewTaskWorld) (m : manager)
    (id : String) (e : String) (h : w.encode (initialStatus V w) = Except.error e) :
    NewTask V w m id =
      { ret := some e, reg := m,
        trace := [Effect.logError ("Failed to encode task status: " ++ e)] } := by
  simp only [NewTask, h]

theorem NewTask_write_error (V : Collaborators) (w : NewTaskWorld) (m : manager)
    (id : String) (buf e : String) (h : w.encode (initialStatus V w) = Except.ok buf)
    (h2 : w.writeFile (statusFile id) buf = some e) :
    NewTask V w m id =
      { ret := some e, reg := m,
        trace := [Effect.writeFile (statusFile id) buf,
          Effect.logError
            ("Failed to write task status file " ++ statusFile id ++ ": " ++ e)] } := by
  simp only [NewTask, h, h2]

theorem NewTask_written (V : Collaborators) (w : NewTaskWorld) (m : manager)
    (id : String) (buf : String) (h : w.encode (initialStatus V w) = Except.ok buf)
    (h2 : w.writeFile (statusFile id) buf = none) :
    (NewTask V w m id).ret = none ∧
      (NewTask V w m id).reg =
        { m with task_list := m.task_list ++ [registeredTask V w m id] } ∧
      (NewTask V w m id).trace =
        [Effect.writeFile (statusFile id) buf, Effect.lock, Effect.unlock,
          Effect.miningOpt id
            { TaskId := id
              InputFile := m.urlprefix ++ V.DataURL
                { id := id, create := w.now, status := V.TaskState2Desc V.Task_New,
                  desc := "", outurl := "", server := "" }
              ParamFile := m.urlprefix ++ V.ParamURL
                { id := id, create := w.now, status := V.TaskState2Desc V.Task_New,
                  desc := "", outurl := "", server := "" } }] := by
  refine ⟨?_, ?_, ?_⟩
  · simp only [NewTask, h, h2]
  · simp only [NewTask, h, h2, set_length_append]
    rfl
  · simp only [NewTask, h, h2]
    rfl

/-- C5. `NewTask` returns an error exactly when the encoder fails or the
encoder succeeds and `ioutil.WriteFile` fails.  When it returns an error the
registry is as it was and no request is sent to the backend; when it returns
`nil` the task list is the previous list followed by the new task, which has
the identifier of the call, the clock reading and the description of
`Task_New`, and one request is sent to the backend. -/
theorem NewTask_error_iff (V : Collaborators) (w : NewTaskWorld) (m : manager)
    (id : String) :
    ((NewTask V w m id).ret ≠ none ↔
        ((∃ e, w.encode (initialStatus V w) = Except.error e) ∨
          ∃ buf e, w.encode (initialStatus V w) = Except.ok buf ∧
            w.writeFile (statusFile id) buf = some e)) ∧
      ((NewTask V w m id).ret ≠ none →
        (NewTask V w m id).reg = m ∧ submissions (NewTask V w m id).trace = []) ∧
      ((NewTask V w m id).ret = none →
        ∃ task, task.id = id ∧ task.create = w.now ∧
          task.status = V.TaskState2Desc V.Task_New ∧
          (NewTask V w m id).reg.task_list = m.task_list ++ [task] ∧
          (submissions (NewTask V w m id).trace).length = 1) := by
  cases h : w.encode (initialStatus V w) with
  | error e =>
    rw [NewTask_encode_error V w m id e h]
    refine ⟨?_, ?_, ?_⟩
    · simp
    · intro _; exact ⟨rfl, rfl⟩
    · intro h0; simp at h0
  | ok buf =>
    cases h2 : w.writeFile (statusFile id) buf with
    | some e =>
      rw [NewTask_write_error V w m id buf e h h2]
      refine ⟨?_, ?_, ?_⟩
      · simp [h2]
      · intro _; exact ⟨rfl, rfl⟩
      · intro h0; simp at h0
    | none =>
      obtain ⟨hr, hreg, htr⟩ := NewTask_written V w m id buf h h2
      refine ⟨?_, ?_, ?_⟩
      · simp [hr, h2]
      · intro h0; exact absurd hr h0
      · intro _
        refine ⟨registeredTask V w m id, rfl, rfl, rfl, ?_, ?_⟩
        · rw [hreg]
        · rw [htr]; rfl

/-- The outcomes of `NewTask`, evaluated: the status file is written; the
encoder fails; the write fails. -/
theorem NewTask_scenarios :
    (NewTask sampleCollaborators sampleWorld (emptyRegistry [] "http://web") "abcd1234").ret
        = none ∧
      (NewTask sampleCollaborators sampleWorld (emptyRegistry [] "http://web")
        "abcd1234").reg.task_list = [sampleTask] ∧
      (NewTask sampleCollaborators { sampleWorld with encode := fun _ => Except.error "year" }
        sampleRegistry "efgh5678").ret = some "year" ∧
      (NewTask sampleCollaborators { sampleWorld with encode := fun _ => Except.error "year" }
        sampleRegistry "efgh5678").reg = sampleRegistry ∧
      (NewTask sampleCollaborators { sampleWorld with writeFile := fun _ _ => some "denied" }
        sampleRegistry "efgh5678").ret = some "denied" ∧
      (NewTask sampleCollaborators { sampleWorld with writeFile := fun _ _ => some "denied" }
        sampleRegistry "efgh5678").reg = sampleRegistry := by
  decide

/-! ## Sequences of operations -/

theorem TaskList_ret (m : manager) : (TaskList m).ret = m.task_list := by
  unfold TaskList
  split
  · rename_i h
    exact (List.length_eq_zero.1 h).symm
  · simp

theorem scanTasks_id (V : Collaborators) (status : StatusEvent) (l : List task_item) :
    ∀ idx, (scanTasks V status idx l).1.map task_item.id = l.map task_item.id := by
  intro idx
  have h := congrArg (List.map Prod.fst) (scanTasks_key V status l idx)
  simpa [List.map_map, Function.comp_def, key] using h

theorem step_ids (V : Collaborators) (m : manager) (op : Op) :
    (step V m op).task_list.map task_item.id =
      m.task_list.map task_item.id ++ registeredIds V [op] := by
  cases op with
  | newTask id w =>
    show (NewTask V w m id).reg.task_list.map task_item.id = _
    cases h : w.encode (initialStatus V w) with
    | error e =>
      rw [NewTask_encode_error V w m id e h]
      simp [registeredIds, h]
    | ok buf =>
      cases h2 : w.writeFile (statusFile id) buf with
      | some e =>
        rw [NewTask_write_error V w m id buf e h h2]
        simp [registeredIds, h, h2]
      | none =>
        rw [(NewTask_written V w m id buf h h2).2.1]
        simp [registeredIds, h, h2, registeredTask_id]
  | notify status =>
    show (scanTasks V status 0 m.task_list).1.map task_item.id = _
    rw [scanTasks_id]
    simp [registeredIds]
  | taskList =>
    show (TaskList m).reg.task_list.map task_item.id = _
    unfold TaskList
    split <;> simp [registeredIds]
  | serverList =>
    show (ServerList m).reg.task_list.map task_item.id = _
    unfold ServerList
    split <;> simp [registeredIds]

theorem registeredIds_cons (V : Collaborators) (op : Op) (ops : List Op) :
    registeredIds V (op :: ops) = registeredIds V [op] ++ registeredIds V ops := by
  cases op with
  | newTask id w =>
    cases h : w.encode (initialStatus V w) with
    | error e => simp [registeredIds, h]
    | ok buf =>
      cases h2 : w.writeFile (statusFile id) buf <;> simp [registeredIds, h, h2]
  | notify status => simp [registeredIds]
  | taskList => simp [registeredIds]
  | serverList => simp [registeredIds]

theorem run_ids (V : Collaborators) (ops : List Op) :
    ∀ m, (run V m ops).task_list.map task_item.id =
      m.task_list.map task_item.id ++ registeredIds V ops := by
  induction ops with
  | nil => intro m; simp [run, registeredIds]
  | cons op ops ih =>
    intro m
    have h := ih (step V m op)
    rw [step_ids] at h
    rw [registeredIds_cons, ← List.append_assoc, ← h]
    rfl

theorem registeredIds_written (V : Collaborators) (calls : List (String × NewTaskWorld))
    (hw : ∀ c ∈ calls, statusFileWritten V c.2 c.1) :
    registeredIds V (calls.map (fun c => Op.newTask c.1 c.2)) = calls.map Prod.fst := by
  induction calls with
  | nil => rfl
  | cons c calls ih =>
    obtain ⟨buf, h, h2⟩ := hw c (List.mem_cons_self _ _)
    have hr := ih (fun d hd => hw d (List.mem_cons_of_mem _ hd))
    simp only [List.map_cons, registeredIds, h, h2, hr]

/-- C1. Starting from a registry without tasks, after a sequence of `NewTask`
calls with pairwise distinct identifiers whose status files are all written,
`TaskList` returns one task per call, with the identifiers of the calls in
call order, these identifiers are pairwise distinct, and every registered
task is returned; on a registry without tasks `TaskList` returns the empty
list. -/
theorem TaskList_after_submissions (V : Collaborators) (servers : List server_item)
    (pre : String) (calls : List (String × NewTaskWorld))
    (hd : (calls.map Prod.fst).Nodup)
    (hw : ∀ c ∈ calls, statusFileWritten V c.2 c.1) :
    (TaskList (run V (emptyRegistry servers pre)
        (calls.map (fun c => Op.newTask c.1 c.2)))).ret.map task_item.id =
        calls.map Prod.fst ∧
      ((TaskList (run V (emptyRegistry servers pre)
        (calls.map (fun c => Op.newTask c.1 c.2)))).ret.map task_item.id).Nodup ∧
      (TaskList (run V (emptyRegistry servers pre)
        (calls.map (fun c => Op.newTask c.1 c.2)))).ret.length = calls.length ∧
      (TaskList (emptyRegistry servers pre)).ret = [] := by
  have h : (TaskList (run V (emptyRegistry servers pre)
      (calls.map (fun c => Op.newTask c.1 c.2)))).ret.map task_item.id =
      calls.map Prod.fst := by
    rw [TaskList_ret, run_ids, registeredIds_written V calls hw]
    simp [emptyRegistry]
  refine ⟨h, by rw [h]; exact hd, ?_, rfl⟩
  have hlen := congrArg List.length h
  simpa using hlen

theorem TaskList_after_submissions_witness :
    ((([("abcd1234", sampleWorld), ("efgh5678", sampleWorld)] :
        List (String × NewTaskWorld)).map Prod.fst).Nodup) ∧
      (TaskList (run sampleCollaborators (emptyRegistry [] "http://web")
        (([("abcd1234", sampleWorld), ("efgh5678", sampleWorld)] :
          List (String × NewTaskWorld)).map (fun c => Op.newTask c.1 c.2)))).ret.map
          task_item.id = ["abcd1234", "efgh5678"] :=
  ⟨by decide,
    (TaskList_after_submissions sampleCollaborators [] "http://web"
      [("abcd1234", sampleWorld), ("efgh5678", sampleWorld)] (by decide)
      (by
        intro c hc
        simp only [List.mem_cons, List.mem_singleton, List.not_mem_nil, or_false] at hc
        rcases hc with rfl | rfl <;> exact ⟨"new", rfl, rfl⟩)).1⟩

/-- C9, on the sample: two calls of `NewTask` with the identifier "abcd1234",
both returning `nil`, leave two records with that identifier. -/
theorem NewTask_duplicate_identifier :
    (NewTask sampleCollaborators sampleWorld (emptyRegistry [] "http://web") "abcd1234").ret
        = none ∧
      (NewTask sampleCollaborators sampleWorld
        (NewTask sampleCollaborators sampleWorld (emptyRegistry [] "http://web")
          "abcd1234").reg "abcd1234").ret = none ∧
      (run sampleCollaborators (emptyRegistry [] "http://web")
        [Op.newTask "abcd1234" sampleWorld, Op.newTask "abcd1234" sampleWorld]).task_list.map
          task_item.id = ["abcd1234", "abcd1234"] ∧
      ¬ ((run sampleCollaborators (emptyRegistry [] "http://web")
        [Op.newTask "abcd1234" sampleWorld, Op.newTask "abcd1234" sampleWorld]).task_list.map
          task_item.id).Nodup := by
  decide

/-- C9, as the code has it.  Starting from a registry without tasks, after
every sequence of operations the identifiers of the task list are the
identifiers of the `NewTask` calls whose status file was written (the calls
that returned `nil`), in call order; so no two records have the same
identifier exactly when these calls carried pairwise distinct identifiers. -/
theorem registry_ids_unique (V : Collaborators) (servers : List server_item)
    (pre : String) (ops : List Op) :
    (run V (emptyRegistry servers pre) ops).task_list.map task_item.id =
        registeredIds V ops ∧
      (((run V (emptyRegistry servers pre) ops).task_list.map task_item.id).Nodup ↔
        (registeredIds V ops).Nodup) := by
  have h : (run V (emptyRegistry servers pre) ops).task_list.map task_item.id =
      registeredIds V ops := by
    rw [run_ids]
    simp [emptyRegistry]
  exact ⟨h, by rw [h]⟩

/-- A sequence of operations, evaluated: two calls of `NewTask` with distinct
identifiers among status events and a `TaskList` leave two records with
these identifiers. -/
theorem registry_ids_scenario :
    registeredIds sampleCollaborators
        [Op.newTask "abcd1234" sampleWorld, Op.notify runningEvent, Op.taskList,
          Op.newTask "efgh5678" sampleWorld, Op.notify doneEvent] =
        ["abcd1234", "efgh5678"] ∧
      (run sampleCollaborators (emptyRegistry [] "http://web")
        [Op.newTask "abcd1234" sampleWorld, Op.notify runningEvent, Op.taskList,
          Op.newTask "efgh5678" sampleWorld, Op.notify doneEvent]).task_list.map task_item.id =
        ["abcd1234", "efgh5678"] := by
  decide

/-- C10. For every operation of the registry (`NewTask`, one iteration of
`waitNotify`, `TaskList`, `ServerList`), the sequence of (identifier, creation
time) pairs of the task list before the operation is a prefix of the sequence
after it. -/
theorem step_keys_prefix (V : Collaborators) (m : manager) (op : Op) :
    m.task_list.map key <+: (step V m op).task_list.map key := by
  cases op with
  | newTask id w =>
    show _ <+: (NewTask V w m id).reg.task_list.map key
    cases h : w.encode (initialStatus V w) with
    | error e =>
      rw [NewTask_encode_error V w m id e h]
    | ok buf =>
      cases h2 : w.writeFile (statusFile id) buf with
      | some e =>
        rw [NewTask_write_error V w m id buf e h h2]
      | none =>
        rw [(NewTask_written V w m id buf h h2).2.1]
        simp
  | notify status =>
    show _ <+: (scanTasks V status 0 m.task_list).1.map key
    rw [scanTasks_key]
  | taskList =>
    show _ <+: (TaskList m).reg.task_list.map key
    unfold TaskList
    split <;> exact List.prefix_refl _
  | serverList =>
    show _ <+: (ServerList m).reg.task_list.map key
    unfold ServerList
    split <;> exact List.prefix_refl _

end MiningOpt
